import Mathlib

/-!
Verification of the Socratic-dialogue core of the obsidian-socratic-challenger
plugin, as a shallow embedding in Lean.

Modelling conventions:
- TypeScript strings are modelled as Lean `String` (sequences of Unicode code
  points); positions and lengths count code points.
- JavaScript `Map` objects are modelled as association lists with
  insert-or-overwrite-in-place semantics (`respSet`), matching `Map.set` and
  insertion-ordered `Map.values()`.
- `Date.now()` and the time/random id generator are modelled as explicit
  parameters (`now : Nat`, `genId : Nat -> String`).
- `JSON.parse` is a host-language builtin, not repository code; it is modelled
  as an abstract parameter (an oracle returning the decoded value, or `none`
  when parsing or shape validation fails, which the source catches).
- Thrown exceptions are modelled with explicit `Option String` error results;
  a TypeScript function that throws before mutating returns the unchanged
  state together with the error message.
-/

/-- JavaScript `String.prototype.trim` modelled at char granularity:
drop whitespace from both ends of the char list. -/
def trimChars (l : List Char) : List Char :=
  ((l.dropWhile Char.isWhitespace).reverse.dropWhile Char.isWhitespace).reverse

/-- Trim of a string, modelling the `.trim()` calls in the source. -/
def jsTrim (s : String) : String :=
  (trimChars s.data).asString

/-- Split a char list at the first occurrence of `pat`: returns the part
before the occurrence and the part after it, or `none` when `pat` does not
occur.  This models leftmost regex/`indexOf` searches. -/
def splitAtFirst (pat : List Char) : List Char → Option (List Char × List Char)
  | [] => if pat.isPrefixOf ([] : List Char) then some ([], []) else none
  | c :: rest =>
    if pat.isPrefixOf (c :: rest) then some ([], (c :: rest).drop pat.length)
    else
      match splitAtFirst pat rest with
      | some (pre, post) => some (c :: pre, post)
      | none => none

/-- JavaScript `String.prototype.includes` (substring containment). -/
def hasSub (s pat : String) : Bool :=
  (splitAtFirst pat.data s.data).isSome

/-- The closed question-type vocabulary (`QuestionTypeEnum` in the source). -/
inductive QuestionTypeEnum where
  | ASSUMPTION
  | PERSPECTIVE
  | EXPANSION
  | CLARIFICATION
  | IMPLICATION
  deriving DecidableEq, Repr

/-- String-keyed lookup into the enum object, modelling
`QuestionTypeEnum[type]` inside `QuestionType.create`: valid enum names map
to the tag, anything else yields `none` (the source throws). -/
def QuestionTypeEnum.ofString : String → Option QuestionTypeEnum
  | "ASSUMPTION" => some .ASSUMPTION
  | "PERSPECTIVE" => some .PERSPECTIVE
  | "EXPANSION" => some .EXPANSION
  | "CLARIFICATION" => some .CLARIFICATION
  | "IMPLICATION" => some .IMPLICATION
  | _ => none

/-- The closed intensity vocabulary (`IntensityLevelEnum` in the source). -/
inductive IntensityLevelEnum where
  | GENTLE
  | MODERATE
  | CHALLENGING
  deriving DecidableEq, Repr

/-- Plain data form of a question (`QuestionData` in the source). -/
structure QuestionData where
  id : String
  type : QuestionTypeEnum
  content : String
  createdAt : Nat
  deriving DecidableEq, Repr

/-- The immutable `Question` entity.  Timestamps are `Nat` milliseconds. -/
structure Question where
  id : String
  type : QuestionTypeEnum
  content : String
  createdAt : Nat
  deriving DecidableEq, Repr

/-- `Question.fromData`: rebuilds the entity from its data record. -/
def Question.fromData (data : QuestionData) : Question :=
  { id := data.id, type := data.type, content := data.content,
    createdAt := data.createdAt }

/-- `Question.toData`: exports the entity fields. -/
def Question.toData (q : Question) : QuestionData :=
  { id := q.id, type := q.type, content := q.content, createdAt := q.createdAt }

/-- A recorded response (`DialogueResponse` in the source). -/
structure DialogueResponse where
  questionId : String
  content : String
  createdAt : Nat
  deriving DecidableEq, Repr

/-- One extracted insight.  The `category` union type is erased at runtime,
so it is modelled as a plain string. -/
structure InsightData where
  title : String
  description : String
  category : String
  deriving DecidableEq, Repr

/-- One suggested note topic (`NoteTopicData` in the source). -/
structure NoteTopicData where
  title : String
  description : String
  suggestedTags : List String
  deriving DecidableEq, Repr

/-- The extracted-insights bundle (`ExtractedInsightsData` in the source). -/
structure ExtractedInsightsData where
  insights : List InsightData
  noteTopics : List NoteTopicData
  unansweredQuestions : List String
  noteEnhancements : List String
  extractedAt : Nat
  deriving DecidableEq, Repr

/-- Plain data form of a session (`DialogueSessionData` in the source);
`noteContext` and `extractedInsights` are optional fields. -/
structure DialogueSessionData where
  id : String
  noteId : String
  notePath : String
  noteContext : Option String
  questions : List QuestionData
  responses : List DialogueResponse
  intensity : IntensityLevelEnum
  extractedInsights : Option ExtractedInsightsData
  createdAt : Nat
  updatedAt : Nat
  deriving DecidableEq, Repr

/-- One entry of `DialogueSession.getHistory` (`DialogueEntry`): the `null`
response sentinel is modelled by `none`. -/
structure DialogueEntry where
  question : Question
  response : Option String
  responseCreatedAt : Option Nat
  deriving DecidableEq, Repr

/-- The `DialogueSession` aggregate.  The internal `Map<string,
DialogueResponse>` is modelled as an insertion-ordered association list. -/
structure DialogueSession where
  id : String
  noteId : String
  notePath : String
  noteContext : String
  questions : List Question
  responses : List (String × DialogueResponse)
  intensity : IntensityLevelEnum
  extractedInsights : Option ExtractedInsightsData
  createdAt : Nat
  updatedAt : Nat
  deriving DecidableEq, Repr

/-- `Map.get` on the response map. -/
def respGet (m : List (String × DialogueResponse)) (k : String) :
    Option DialogueResponse :=
  (m.find? (fun p => p.1 == k)).map Prod.snd

/-- `Map.has` on the response map. -/
def respHas (m : List (String × DialogueResponse)) (k : String) : Bool :=
  (respGet m k).isSome

/-- `Map.set` on the response map: overwrite in place when the key exists
(preserving insertion order), otherwise append at the end. -/
def respSet (m : List (String × DialogueResponse)) (k : String)
    (v : DialogueResponse) : List (String × DialogueResponse) :=
  if m.any (fun p => p.1 == k) then
    m.map (fun p => if p.1 == k then (k, v) else p)
  else
    m ++ [(k, v)]

/-- `DialogueSession.fromData(data, noteContext?)`: rebuild a session from its
data record; a supplied context override takes precedence over the stored
`noteContext`, which itself defaults to the empty string. -/
def DialogueSession.fromData (data : DialogueSessionData)
    (noteContext : Option String) : DialogueSession :=
  { id := data.id
    noteId := data.noteId
    notePath := data.notePath
    noteContext := (noteContext.getD (data.noteContext.getD ""))
    questions := data.questions.map Question.fromData
    responses := data.responses.foldl (fun m r => respSet m r.questionId r) []
    intensity := data.intensity
    extractedInsights := data.extractedInsights
    createdAt := data.createdAt
    updatedAt := data.updatedAt }

/-- `DialogueSession.toData(options)`: export the session; with
`excludeNoteContext` the `noteContext` field is omitted entirely. -/
def DialogueSession.toData (s : DialogueSession) (excludeNoteContext : Bool) :
    DialogueSessionData :=
  { id := s.id
    noteId := s.noteId
    notePath := s.notePath
    noteContext := if excludeNoteContext then none else some s.noteContext
    questions := s.questions.map Question.toData
    responses := s.responses.map Prod.snd
    intensity := s.intensity
    extractedInsights := s.extractedInsights
    createdAt := s.createdAt
    updatedAt := s.updatedAt }

/-- `DialogueSession.addResponse(questionId, content)`: throws (returns the
unchanged session plus the error message) when no question has the given id;
otherwise stores or overwrites the response and bumps `updatedAt`. -/
def DialogueSession.addResponse (s : DialogueSession)
    (questionId content : String) (now : Nat) :
    DialogueSession × Option String :=
  match s.questions.find? (fun q => q.id == questionId) with
  | none => (s, some ("Question not found: " ++ questionId))
  | some _ =>
    ({ s with
        responses := respSet s.responses questionId
          { questionId := questionId, content := content, createdAt := now }
        updatedAt := now }, none)

/-- `DialogueSession.getHistory()`: pair every question, in insertion order,
with its recorded response or the null sentinel. -/
def DialogueSession.getHistory (s : DialogueSession) : List DialogueEntry :=
  s.questions.map (fun q =>
    match respGet s.responses q.id with
    | some r =>
      { question := q, response := some r.content,
        responseCreatedAt := some r.createdAt }
    | none => { question := q, response := none, responseCreatedAt := none })

/-- `DialogueSession.getUnansweredQuestions()`. -/
def DialogueSession.getUnansweredQuestions (s : DialogueSession) :
    List Question :=
  s.questions.filter (fun q => !(respHas s.responses q.id))

/-- `DialogueSession.getAnsweredQuestions()`. -/
def DialogueSession.getAnsweredQuestions (s : DialogueSession) :
    List Question :=
  s.questions.filter (fun q => respHas s.responses q.id)

/-- Well-formedness of the response map, intrinsic to the JavaScript `Map` it
models: keys are distinct, and every entry is keyed by its own `questionId`
(the only `set` call sites use `r.questionId` as the key). -/
def SessionWF (s : DialogueSession) : Prop :=
  (s.responses.map Prod.fst).Nodup ∧
    ∀ p ∈ s.responses, p.2.questionId = p.1

/-- The three-backtick fence delimiter used by the response parsers. -/
def fenceChars : List Char := "```".data

/-- Fuel-driven scan for the first fenced code block, modelling the regex
used by both response parsers: a fence, an optional `json` tag, greedy
whitespace, then a lazily captured body up to the next fence.  Returns the
captured body of the first position admitting a full match. -/
def findFencedF : Nat → List Char → Option (List Char)
  | 0, _ => none
  | _ + 1, [] => none
  | fuel + 1, c :: rest =>
    if fenceChars.isPrefixOf (c :: rest) then
      let after := (c :: rest).drop 3
      let after2 := if "json".data.isPrefixOf after then after.drop 4 else after
      let body := after2.dropWhile Char.isWhitespace
      match splitAtFirst fenceChars body with
      | some (cap, _) => some cap
      | none => findFencedF fuel rest
    else findFencedF fuel rest

/-- First fenced code block of a string, or `none`. -/
def findFenced (s : String) : Option String :=
  (findFencedF s.data.length s.data).map List.asString

/-- One entry of the expected `{questions: [{type, content}]}` JSON shape. -/
structure RawQuestion where
  type : String
  content : String
  deriving DecidableEq, Repr

/-- Model of `JSON.parse` for the question parser: `none` when parsing
throws, `some none` when the value lacks a `questions` array, and
`some (some raws)` when the array is present. -/
def QJsonParse : Type := String → Option (Option (List RawQuestion))

/-- The strict branch of the question parser: construct one question per
entry, failing the whole batch (the source throws out of `map`) when any
entry has a type outside the closed vocabulary. -/
def buildPrimaryQuestions (genId : Nat → String) (now : Nat)
    (raws : List RawQuestion) : Option (List Question) :=
  (raws.mapM (fun r =>
      (QuestionTypeEnum.ofString r.type).map (fun ty => (ty, r.content)))).map
    (fun ps => ps.enum.map (fun p =>
      { id := genId p.1, type := p.2.1, content := p.2.2, createdAt := now }))

/-- Keyword and icon heuristics for the fallback scan, applied to the
trimmed line, with `ASSUMPTION` as the default. -/
def detectQuestionType (t : String) : QuestionTypeEnum :=
  if hasSub t "🔍" || hasSub t "가정" then .ASSUMPTION
  else if hasSub t "👁️" || hasSub t "관점" then .PERSPECTIVE
  else if hasSub t "🌐" || hasSub t "확장" then .EXPANSION
  else if hasSub t "💡" || hasSub t "명확" then .CLARIFICATION
  else if hasSub t "🎯" || hasSub t "함의" then .IMPLICATION
  else .ASSUMPTION

/-- Icon glyphs stripped by the fallback cleaner.  The source applies a
char-class replace; it is modelled at code-point granularity. -/
def iconChars : List Char := ['🔍', '👁', '️', '🌐', '💡', '🎯']

/-- Strip one leading bullet marker and the whitespace after it. -/
def stripBullet (l : List Char) : List Char :=
  match l with
  | c :: rest =>
    if c = '-' ∨ c = '*' ∨ c = '•' then rest.dropWhile Char.isWhitespace else l
  | [] => l

/-- Strip one leading icon glyph and the whitespace after it. -/
def stripIcon (l : List Char) : List Char :=
  match l with
  | c :: rest =>
    if c ∈ iconChars then rest.dropWhile Char.isWhitespace else l
  | [] => l

/-- Strip a leading `digits.` numbering marker and the whitespace after it. -/
def stripNumbering (l : List Char) : List Char :=
  let ds := l.takeWhile Char.isDigit
  if ds ≠ [] ∧ (l.drop ds.length).head? = some '.' then
    (l.drop (ds.length + 1)).dropWhile Char.isWhitespace
  else l

/-- The fallback cleaner: bullet, then icon, then numbering, then trim. -/
def cleanContent (t : String) : String :=
  (trimChars (stripNumbering (stripIcon (stripBullet t.data)))).asString

/-- Split a char list into newline-separated groups, modelling the
JavaScript `split('\n')` call (a trailing newline yields a final empty
line, as in JavaScript). -/
def splitLinesChars (l : List Char) : List (List Char) :=
  l.foldr (fun c acc =>
    match acc with
    | cur :: rest => if c = '\n' then [] :: cur :: rest else (c :: cur) :: rest
    | [] => [[c]]) [[]]

/-- The lines of a string, as split by the source on newline characters. -/
def jsSplitLines (s : String) : List String :=
  (splitLinesChars s.data).map List.asString

/-- One iteration of the fallback loop body: a trimmed nonempty line
containing a question mark is a candidate; it is appended as a question
exactly when its cleaned content is longer than 10 characters. -/
def fallbackStep (genId : Nat → String) (now : Nat)
    (acc : List Question) (line : String) : List Question :=
  let trimmed := jsTrim line
  if trimmed ≠ "" ∧ hasSub trimmed "?" then
    let cleaned := cleanContent trimmed
    if cleaned.length > 10 then
      acc ++ [{ id := genId acc.length, type := detectQuestionType trimmed,
                content := cleaned, createdAt := now }]
    else acc
  else acc

/-- The heuristic fallback scan of the question parser: the loop over the
lines of the text. -/
def fallbackScanQuestions (genId : Nat → String) (now : Nat) (text : String) :
    List Question :=
  (jsSplitLines text).foldl (fallbackStep genId now) []

/-- `parseQuestionsFromResponse`: strict fenced-JSON branch first; any
failure there (no parse, missing array, invalid type) falls through to the
heuristic line scan. -/
def parseQuestionsFromResponse (jq : QJsonParse) (genId : Nat → String)
    (now : Nat) (text : String) : List Question :=
  let jsonStr := match findFenced text with
    | some b => jsTrim b
    | none => jsTrim text
  match jq jsonStr with
  | some (some raws) =>
    match buildPrimaryQuestions genId now raws with
    | some qs => qs
    | none => fallbackScanQuestions genId now text
  | _ => fallbackScanQuestions genId now text

/-- Result shape of the external LLM capability. -/
structure LLMResponse where
  success : Bool
  content : String
  error : Option String
  deriving DecidableEq, Repr

/-- Input payload of the question-generation use case. -/
structure GenerateQuestionsInput where
  noteContent : String
  questionTypes : List QuestionTypeEnum
  intensity : IntensityLevelEnum
  maxQuestions : Option Nat
  deriving DecidableEq, Repr

/-- Output payload of the question-generation use case. -/
structure GenerateQuestionsOutput where
  questions : List Question
  rawResponse : Option String
  error : Option String
  deriving DecidableEq, Repr

/-- Validation message for an empty note. -/
def msgEmptyNote : String := "노트 내용이 비어있습니다."

/-- Validation message for an empty question-type selection. -/
def msgNoTypes : String := "질문 유형을 하나 이상 선택해주세요."

/-- Default message when the LLM call itself failed (question generation). -/
def msgLLMFailKo : String := "LLM 요청에 실패했습니다."

/-- Dedicated message when the LLM succeeded but no questions were
recoverable from its response. -/
def msgNoQuestions : String :=
  "질문을 생성하지 못했습니다. 노트 내용이 너무 짧거나 모호할 수 있습니다."

/-- `GenerateQuestionsUseCase.execute`.  The LLM capability is modelled by
the `response` parameter; the returned flag records whether the code reached
the LLM call (`true`) or short-circuited on validation (`false`). -/
def GenerateQuestionsUseCase.execute (jq : QJsonParse) (genId : Nat → String)
    (now : Nat) (input : GenerateQuestionsInput) (response : LLMResponse) :
    GenerateQuestionsOutput × Bool :=
  if jsTrim input.noteContent = "" then
    ({ questions := [], rawResponse := none, error := some msgEmptyNote }, false)
  else if input.questionTypes = [] then
    ({ questions := [], rawResponse := none, error := some msgNoTypes }, false)
  else if response.success = false then
    ({ questions := [], rawResponse := some response.content,
       error := some (response.error.getD msgLLMFailKo) }, true)
  else
    let qs := parseQuestionsFromResponse jq genId now response.content
    if qs = [] then
      ({ questions := [], rawResponse := some response.content,
         error := some msgNoQuestions }, true)
    else
      ({ questions := qs, rawResponse := some response.content,
         error := none }, true)

/-- One entry of the `insights` array as decoded from JSON; every field may
be absent. -/
structure RawInsight where
  title : Option String
  description : Option String
  category : Option String
  deriving DecidableEq, Repr

/-- One entry of the `noteTopics` array as decoded from JSON. -/
structure RawNoteTopic where
  title : Option String
  description : Option String
  suggestedTags : Option (List String)
  deriving DecidableEq, Repr

/-- The four-field insight JSON shape; each field may be absent. -/
structure RawInsightsJson where
  insights : Option (List RawInsight)
  noteTopics : Option (List RawNoteTopic)
  unansweredQuestions : Option (List String)
  noteEnhancements : Option (List String)
  deriving DecidableEq, Repr

/-- Model of `JSON.parse` for the insight parser. -/
def IJsonParse : Type := String → Option RawInsightsJson

/-- JavaScript `x || d` on an optional string: absent and empty both fall
back to the default. -/
def jsOrStr (x : Option String) (d : String) : String :=
  match x with
  | none => d
  | some s => if s = "" then d else s

/-- The four validated lists produced by `parseInsightsFromResponse`. -/
structure InsightsParseResult where
  insights : List InsightData
  noteTopics : List NoteTopicData
  unansweredQuestions : List String
  noteEnhancements : List String
  deriving DecidableEq, Repr

/-- `parseInsightsFromResponse`: decode the fenced JSON, defaulting missing
or empty fields instead of aborting; any parse failure yields the empty
bundle. -/
def parseInsightsFromResponse (jI : IJsonParse) (text : String) :
    InsightsParseResult :=
  let jsonStr := match findFenced text with
    | some b => jsTrim b
    | none => jsTrim text
  match jI jsonStr with
  | some parsed =>
    { insights := (parsed.insights.getD []).map (fun i =>
        { title := jsOrStr i.title "", description := jsOrStr i.description "",
          category := jsOrStr i.category "discovery" })
      noteTopics := (parsed.noteTopics.getD []).map (fun t =>
        { title := jsOrStr t.title "", description := jsOrStr t.description "",
          suggestedTags := t.suggestedTags.getD [] })
      unansweredQuestions := parsed.unansweredQuestions.getD []
      noteEnhancements := parsed.noteEnhancements.getD [] }
  | none =>
    { insights := [], noteTopics := [], unansweredQuestions := [],
      noteEnhancements := [] }

/-- Output payload of the insight-extraction use case. -/
structure ExtractInsightsOutput where
  insights : List InsightData
  noteTopics : List NoteTopicData
  unansweredQuestions : List String
  noteEnhancements : List String
  rawResponse : Option String
  error : Option String
  deriving DecidableEq, Repr

/-- Precondition message: extraction needs at least one answered question. -/
def msgNeedAnswered : String :=
  "At least one question must be answered to extract insights."

/-- Default message when the LLM call itself failed (insight extraction). -/
def msgLLMFailEn : String := "LLM request failed."

/-- Message when the LLM succeeded but both the insights list and the
note-topics list came back empty. -/
def msgFailExtract : String :=
  "Failed to extract insights. The responses may be too short."

/-- `ExtractInsightsUseCase.execute`, with the same LLM modelling as
question generation. -/
def ExtractInsightsUseCase.execute (jI : IJsonParse)
    (session : DialogueSession) (response : LLMResponse) :
    ExtractInsightsOutput × Bool :=
  if session.getAnsweredQuestions.length = 0 then
    ({ insights := [], noteTopics := [], unansweredQuestions := [],
       noteEnhancements := [], rawResponse := none,
       error := some msgNeedAnswered }, false)
  else if response.success = false then
    ({ insights := [], noteTopics := [], unansweredQuestions := [],
       noteEnhancements := [], rawResponse := some response.content,
       error := some (response.error.getD msgLLMFailEn) }, true)
  else
    let result := parseInsightsFromResponse jI response.content
    if result.insights = [] ∧ result.noteTopics = [] then
      ({ insights := result.insights, noteTopics := result.noteTopics,
         unansweredQuestions := result.unansweredQuestions,
         noteEnhancements := result.noteEnhancements,
         rawResponse := some response.content,
         error := some msgFailExtract }, true)
    else
      ({ insights := result.insights, noteTopics := result.noteTopics,
         unansweredQuestions := result.unansweredQuestions,
         noteEnhancements := result.noteEnhancements,
         rawResponse := some response.content, error := none }, true)

/-- Validation message for an empty response text. -/
def msgEmptyResponse : String := "응답 내용이 비어있습니다."

/-- `RecordResponseUseCase.execute`: reject blank input, record the trimmed
response on the session, then persist through the repository collaborator
(modelled by `save`); the session is returned on every path. -/
def RecordResponseUseCase.execute (save : DialogueSession → Except String Unit)
    (now : Nat) (session : DialogueSession) (questionId response : String) :
    DialogueSession × Option String :=
  if jsTrim response = "" then (session, some msgEmptyResponse)
  else
    match session.addResponse questionId (jsTrim response) now with
    | (_, some e) => (session, some e)
    | (s1, none) =>
      match save s1 with
      | .ok _ => (s1, none)
      | .error e => (s1, some e)

/-- The dialogue-section heading marker. -/
def DIALOGUE_SECTION_MARKER : String := "## Socratic Dialogue"

/-- Leading literal of the current callout block format. -/
def calloutHeaderChars : List Char := "> [!abstract]- Socratic Data".data

/-- Leading literal of the legacy comment format. -/
def commentStartChars : List Char := "%%SOCRATIC_DATA:".data

/-- Opening marker (with its trailing newline) of the oldest block format. -/
def legacyStartChars : List Char := ("%%SOCRATIC_DATA_START%%".data) ++ ['\n']

/-- Closing marker (with its leading newline) of the oldest block format. -/
def legacyEndChars : List Char := '\n' :: "%%SOCRATIC_DATA_END%%".data

/-- Scan for every `%%SOCRATIC_DATA:payload%%` comment block, capturing the
payloads in document order.  A position where the literal matches but no
`%%` terminator follows the payload is skipped one character at a time,
matching the regex engine. -/
def scanCommentF : Nat → List Char → List (List Char)
  | 0, _ => []
  | _ + 1, [] => []
  | fuel + 1, c :: rest =>
    if commentStartChars.isPrefixOf (c :: rest) then
      let after := (c :: rest).drop commentStartChars.length
      let cap := after.takeWhile (fun x => x ≠ '%')
      let tail := after.drop cap.length
      if cap ≠ [] ∧ tail.take 2 = ['%', '%'] then
        cap :: scanCommentF fuel (tail.drop 2)
      else scanCommentF fuel rest
    else scanCommentF fuel rest

/-- Comment-format payloads of a document. -/
def scanComment (l : List Char) : List (List Char) := scanCommentF l.length l

/-- Scan for every oldest-format block: the opening marker line, a lazily
captured body up to the earliest closing marker line. -/
def scanLegacyF : Nat → List Char → List (List Char)
  | 0, _ => []
  | _ + 1, [] => []
  | fuel + 1, c :: rest =>
    if legacyStartChars.isPrefixOf (c :: rest) then
      match splitAtFirst legacyEndChars ((c :: rest).drop legacyStartChars.length) with
      | some (cap, post) => cap :: scanLegacyF fuel post
      | none => scanLegacyF fuel rest
    else scanLegacyF fuel rest

/-- Oldest-format payloads of a document. -/
def scanLegacy (l : List Char) : List (List Char) := scanLegacyF l.length l

/-- The lookahead after the captured JSON object of a callout block: end of
input, or a newline that does not begin another `>` quoted line. -/
def calloutLookaheadOk : List Char → Bool
  | [] => true
  | c :: rest =>
    c == '\n' && (match rest with
      | '>' :: _ => false
      | _ => true)

/-- Lazily find the earliest closing brace whose lookahead succeeds,
returning the capture tail (ending at that brace) and the remainder. -/
def findBraceEnd : List Char → Option (List Char × List Char)
  | [] => none
  | c :: rest =>
    if c == '}' && calloutLookaheadOk rest then some ([c], rest)
    else
      match findBraceEnd rest with
      | some (cap, post) => some (c :: cap, post)
      | none => none

/-- Scan for every callout block: the header line, then a quoted line
holding the JSON object, captured up to the lookahead position. -/
def scanCalloutF : Nat → List Char → List (List Char)
  | 0, _ => []
  | _ + 1, [] => []
  | fuel + 1, c :: rest =>
    if calloutHeaderChars.isPrefixOf (c :: rest) then
      let afterHeader := (c :: rest).drop calloutHeaderChars.length
      let afterLine := afterHeader.dropWhile (fun x => x ≠ '\n')
      match afterLine with
      | '\n' :: more =>
        if ['>', ' ', '{'].isPrefixOf more then
          match findBraceEnd (more.drop 3) with
          | some (capTail, post) => ('{' :: capTail) :: scanCalloutF fuel post
          | none => scanCalloutF fuel rest
        else scanCalloutF fuel rest
      | _ => scanCalloutF fuel rest
    else scanCalloutF fuel rest

/-- Callout-format payloads of a document. -/
def scanCallout (l : List Char) : List (List Char) := scanCalloutF l.length l

/-- Model of `JSON.parse` plus the `DialogueSessionData` shape assertion for
the persistence codec: `none` covers both a parse throw and a shape mismatch
surfacing inside the per-block `try`. -/
def SessionJsonParse : Type := String → Option DialogueSessionData

/-- Decode a list of captured payloads: each payload is trimmed, parsed, and
turned into a session with the supplied note context; failing payloads are
skipped (the source logs a warning and continues). -/
def sessionsFromBlocks (jp : SessionJsonParse) (noteContext : String)
    (blocks : List (List Char)) : List DialogueSession :=
  blocks.filterMap (fun b =>
    (jp (jsTrim b.asString)).map (fun d =>
      DialogueSession.fromData d (some noteContext)))

/-- `ObsidianDialogueRepository.parseSessionsFromContent`: callout format
first, then the comment format, then the oldest format, stopping at the
first format that yields at least one successfully parsed session. -/
def ObsidianDialogueRepository.parseSessionsFromContent (jp : SessionJsonParse)
    (content noteContext : String) : List DialogueSession :=
  let callout := sessionsFromBlocks jp noteContext (scanCallout content.data)
  if callout.length ≠ 0 then callout
  else
    let comment := sessionsFromBlocks jp noteContext (scanComment content.data)
    if comment.length ≠ 0 then comment
    else sessionsFromBlocks jp noteContext (scanLegacy content.data)

/-- Largest index at most `bound` where `pat` occurs in `l`, modelling
`String.prototype.lastIndexOf(pat, bound)`. -/
def lastIndexOfLe (pat l : List Char) (bound : Nat) : Option Nat :=
  ((List.range (bound + 1)).filter (fun i => pat.isPrefixOf (l.drop i))).getLast?

/-- `extractNoteContext`: the document text before the dialogue section
(cut at the separator preceding the section heading when one exists at a
positive index), trimmed; the whole document when no section exists. -/
def extractNoteContext (content : String) : String :=
  match splitAtFirst DIALOGUE_SECTION_MARKER.data content.data with
  | none => content
  | some (pre, _) =>
    let sectionIndex := pre.length
    match lastIndexOfLe "---".data content.data sectionIndex with
    | some sep =>
      if sep > 0 then (trimChars (content.data.take sep)).asString
      else (trimChars (content.data.take sectionIndex)).asString
    | none => (trimChars (content.data.take sectionIndex)).asString

/-- `ObsidianDialogueRepository.getHistory`: look the document up in the
vault (modelled as a partial map from paths to contents), derive the note
context, and parse all persisted sessions; a missing document yields the
empty list. -/
def ObsidianDialogueRepository.getHistory (jp : SessionJsonParse)
    (vault : String → Option String) (noteId : String) :
    List DialogueSession :=
  match vault noteId with
  | none => []
  | some content =>
    ObsidianDialogueRepository.parseSessionsFromContent jp content
      (extractNoteContext content)

/-- `ObsidianDialogueRepository.findByNoteId`: the first session of
`getHistory`, or `none` when there is none. -/
def ObsidianDialogueRepository.findByNoteId (jp : SessionJsonParse)
    (vault : String → Option String) (noteId : String) :
    Option DialogueSession :=
  match ObsidianDialogueRepository.getHistory jp vault noteId with
  | [] => none
  | s :: _ => some s

/-- The provider vocabulary of the AI service. -/
inductive AIProviderType where
  | claude
  | openai
  | gemini
  | grok
  deriving DecidableEq, Repr

/-- One chat message handed to the LLM capability. -/
structure LLMMessage where
  role : String
  content : String
  deriving DecidableEq, Repr

/-- Generation options; the floating-point sampling knobs are modelled as
rationals. -/
structure LLMGenerateOptions where
  maxTokens : Option Nat
  temperature : Option ℚ
  topP : Option ℚ
  stopSequences : Option (List String)

/-- A registered LLM provider: its stored API key and its generate call
(the network behaviour is an abstract function). -/
structure ILLMProvider where
  apiKey : String
  generate : List LLMMessage → Option LLMGenerateOptions → LLMResponse

/-- `BaseProvider.isAvailable`: a provider is available exactly when its API
key is a nonempty string (`!!this.apiKey`). -/
def ILLMProvider.isAvailable (p : ILLMProvider) : Bool := p.apiKey ≠ ""

/-- The settings held by the AI service. -/
structure AISettings where
  provider : AIProviderType
  apiKeys : AIProviderType → Option String
  models : AIProviderType → Option String

/-- The AI service: a registry of providers plus the current settings. -/
structure AIService where
  providers : List (AIProviderType × ILLMProvider)
  settings : AISettings

/-- `AIService.getCurrentProvider`: the provider registered under the
currently configured provider type. -/
def AIService.getCurrentProvider (svc : AIService) : Option ILLMProvider :=
  (svc.providers.find? (fun p => p.1 == svc.settings.provider)).map Prod.snd

/-- Error message when no provider is selected or registered. -/
def msgNoProvider : String := "프로바이더가 선택되지 않았습니다."

/-- Error message when the selected provider has no API key. -/
def msgNoApiKey : String := "API 키가 설정되지 않았습니다."

/-- `AIService.generateText`: resolve the current provider, check its
availability, then delegate; the flag records whether the provider generate
call was reached. -/
def AIService.generateText (svc : AIService) (messages : List LLMMessage)
    (options : Option LLMGenerateOptions) : LLMResponse × Bool :=
  match svc.getCurrentProvider with
  | none => ({ success := false, content := "", error := some msgNoProvider }, false)
  | some provider =>
    if provider.isAvailable = false then
      ({ success := false, content := "", error := some msgNoApiKey }, false)
    else (provider.generate messages options, true)

/-- A concrete question used by the witnesses. -/
def qEx1 : Question :=
  { id := "q1", type := .ASSUMPTION, content := "Why is this assumed?",
    createdAt := 10 }

/-- A second concrete question used by the witnesses. -/
def qEx2 : Question :=
  { id := "q2", type := .PERSPECTIVE, content := "From the other side?",
    createdAt := 11 }

/-- A concrete recorded response used by the witnesses. -/
def rEx1 : DialogueResponse :=
  { questionId := "q1", content := "Because of X.", createdAt := 20 }

/-- A concrete session with two questions, one answered, and an extracted
insight bundle. -/
def sEx : DialogueSession :=
  { id := "session_1", noteId := "note.md", notePath := "note.md",
    noteContext := "My note.", questions := [qEx1, qEx2],
    responses := [("q1", rEx1)], intensity := .MODERATE,
    extractedInsights := some
      { insights := [{ title := "T", description := "D",
                       category := "discovery" }],
        noteTopics := [], unansweredQuestions := ["U?"],
        noteEnhancements := [], extractedAt := 30 },
    createdAt := 5, updatedAt := 20 }

/-- The data record persisted for the witness session of the codec
scenarios. -/
def dEx : DialogueSessionData :=
  { id := "s1", noteId := "note.md", notePath := "note.md",
    noteContext := none,
    questions := [{ id := "q1", type := .ASSUMPTION,
                    content := "Why is this assumed?", createdAt := 10 }],
    responses := [{ questionId := "q1", content := "Because of X.",
                    createdAt := 20 }],
    intensity := .MODERATE, extractedInsights := none,
    createdAt := 100, updatedAt := 120 }

/-- The JSON text whose decoding is `dEx`; this is exactly the string
`JSON.stringify` produces for that record. -/
def payloadEx : String :=
  "\x7b\"id\":\"s1\",\"noteId\":\"note.md\",\"notePath\":\"note.md\"," ++
  "\"questions\":[\x7b\"id\":\"q1\",\"type\":\"ASSUMPTION\"," ++
  "\"content\":\"Why is this assumed?\",\"createdAt\":10\x7d]," ++
  "\"responses\":[\x7b\"questionId\":\"q1\",\"content\":\"Because of X.\"," ++
  "\"createdAt\":20\x7d],\"intensity\":\"MODERATE\"," ++
  "\"createdAt\":100,\"updatedAt\":120\x7d"

/-- Oracle instance of `JSON.parse` for the codec scenarios: it decodes
`payloadEx` to `dEx` and fails on anything else (such as the corrupted
payload below). -/
def jpEx : SessionJsonParse :=
  fun s => if s = payloadEx then some dEx else none

/-- A document holding one session in the oldest block format only. -/
def legacyDocEx : String :=
  "My note.\n\n---\n\n## Socratic Dialogue\n\nTranscript text.\n\n" ++
  "%%SOCRATIC_DATA_START%%\n" ++ payloadEx ++ "\n%%SOCRATIC_DATA_END%%"

/-- A vault holding only `legacyDocEx`. -/
def vaultLegacyEx : String → Option String :=
  fun p => if p = "note.md" then some legacyDocEx else none

/-- A document whose first oldest-format block is corrupted (not valid
JSON) and whose second block is `payloadEx`. -/
def legacyDoc2Ex : String :=
  "My note.\n\n%%SOCRATIC_DATA_START%%\noops not json\n%%SOCRATIC_DATA_END%%\n" ++
  "%%SOCRATIC_DATA_START%%\n" ++ payloadEx ++ "\n%%SOCRATIC_DATA_END%%"

/-- A vault holding only `legacyDoc2Ex`. -/
def vaultLegacy2Ex : String → Option String :=
  fun p => if p = "note2.md" then some legacyDoc2Ex else none

/-- A document holding the same session in the current callout format. -/
def calloutDocEx : String :=
  "Note body.\n\n---\n\n## Socratic Dialogue\n\n" ++
  "> [!abstract]- Socratic Data (세션 데이터 - 수정하지 마세요)\n> " ++
  payloadEx ++ "\n"

/-- Data record of an older session (creation time 100) with no questions. -/
def dOldEx : DialogueSessionData :=
  { id := "sA", noteId := "note.md", notePath := "note.md",
    noteContext := none, questions := [], responses := [],
    intensity := .GENTLE, extractedInsights := none,
    createdAt := 100, updatedAt := 100 }

/-- Data record of a newer session (creation time 200) with no questions. -/
def dNewEx : DialogueSessionData :=
  { id := "sB", noteId := "note.md", notePath := "note.md",
    noteContext := none, questions := [], responses := [],
    intensity := .GENTLE, extractedInsights := none,
    createdAt := 200, updatedAt := 200 }

/-- JSON text decoding to `dOldEx`. -/
def payloadOldEx : String :=
  "\x7b\"id\":\"sA\",\"noteId\":\"note.md\",\"notePath\":\"note.md\"," ++
  "\"questions\":[],\"responses\":[],\"intensity\":\"GENTLE\"," ++
  "\"createdAt\":100,\"updatedAt\":100\x7d"

/-- JSON text decoding to `dNewEx`. -/
def payloadNewEx : String :=
  "\x7b\"id\":\"sB\",\"noteId\":\"note.md\",\"notePath\":\"note.md\"," ++
  "\"questions\":[],\"responses\":[],\"intensity\":\"GENTLE\"," ++
  "\"createdAt\":200,\"updatedAt\":200\x7d"

/-- Oracle instance of `JSON.parse` decoding the two payloads above. -/
def jpTwoEx : SessionJsonParse :=
  fun s =>
    if s = payloadOldEx then some dOldEx
    else if s = payloadNewEx then some dNewEx
    else none

/-- A document holding two persisted sessions, the older one first in
document order. -/
def docTwoEx : String :=
  "My note.\n\n%%SOCRATIC_DATA_START%%\n" ++ payloadOldEx ++
  "\n%%SOCRATIC_DATA_END%%\n%%SOCRATIC_DATA_START%%\n" ++ payloadNewEx ++
  "\n%%SOCRATIC_DATA_END%%"

/-- A vault holding only `docTwoEx`. -/
def vaultTwoEx : String → Option String :=
  fun p => if p = "note.md" then some docTwoEx else none

/-- Setting a fresh key appends the entry at the end of the map. -/
theorem respSet_of_not_mem (m : List (String × DialogueResponse)) (k : String)
    (v : DialogueResponse) (h : ∀ p ∈ m, p.1 ≠ k) :
    respSet m k v = m ++ [(k, v)] := by
  have ha : m.any (fun p => p.1 == k) = false := by
    rw [List.any_eq_false]
    intro p hp
    simpa using h p hp
  simp [respSet, ha]

/-- Rebuilding a response map from its value list restores it, provided the
keys are distinct and every entry is keyed by its own question id. -/
theorem foldl_respSet_values (rs : List (String × DialogueResponse)) :
    ∀ acc : List (String × DialogueResponse),
      ((acc ++ rs).map Prod.fst).Nodup →
      (∀ p ∈ rs, p.2.questionId = p.1) →
      (rs.map Prod.snd).foldl (fun m r => respSet m r.questionId r) acc =
        acc ++ rs := by
  induction rs with
  | nil => intro acc _ _; simp
  | cons hd tl ih =>
    intro acc hnd hk
    obtain ⟨k, v⟩ := hd
    have hq : v.questionId = k := hk (k, v) (by simp)
    have hfresh : ∀ p ∈ acc, p.1 ≠ k := by
      intro p hp hpk
      have h1 : (k : String) ∈ acc.map Prod.fst :=
        hpk ▸ List.mem_map_of_mem Prod.fst hp
      have h2 : ((acc.map Prod.fst) ++ (k :: tl.map Prod.fst)).Nodup := by
        simpa using hnd
      rw [List.nodup_append] at h2
      exact h2.2.2 h1 (by simp)
    have hnd2 : (((acc ++ [(k, v)]) ++ tl).map Prod.fst).Nodup := by
      rw [List.append_assoc, List.singleton_append]
      exact hnd
    have hk2 : ∀ p ∈ tl, p.2.questionId = p.1 := fun p hp => hk p (by simp [hp])
    simp only [List.map_cons, List.foldl_cons, hq,
      respSet_of_not_mem acc k v hfresh]
    rw [ih (acc ++ [(k, v)]) hnd2 hk2, List.append_assoc, List.singleton_append]

/-- C1: reconstructing a session from its exported data restores it exactly:
same question list in order (ids, types, contents, creation times), same
response associations keyed by question id, same intensity, and the same
extracted-insights bundle; this holds with `excludeNoteContext` set (with
the note context supplied as the override on reconstruction) and without
it. -/
theorem DialogueSession.fromData_toData (s : DialogueSession) (excl : Bool)
    (h : SessionWF s) :
    DialogueSession.fromData (s.toData excl)
      (if excl then some s.noteContext else none) = s := by
  obtain ⟨hnd, hk⟩ := h
  have hresp :
      (s.responses.map Prod.snd).foldl (fun m r => respSet m r.questionId r)
        [] = s.responses := by
    have := foldl_respSet_values s.responses [] (by simpa using hnd) hk
    simpa using this
  have hqs : ∀ l : List Question,
      (l.map Question.toData).map Question.fromData = l := by
    intro l
    induction l with
    | nil => rfl
    | cons q t iht => cases q; simp [Question.toData, Question.fromData, iht]
  cases s with
  | mk sid snid snp snc sq sr si sins sca sua =>
    simp only [DialogueSession.toData, DialogueSession.fromData]
    rw [DialogueSession.mk.injEq]
    refine ⟨rfl, rfl, rfl, ?_, hqs sq, hresp, rfl, rfl, rfl, rfl⟩
    cases excl <;> rfl

/-- Witness for C1 at a concrete session with two questions, one response,
and an insight bundle, exercising the exclude-note-context branch. -/
theorem DialogueSession.fromData_toData_witness :
    DialogueSession.fromData (sEx.toData true) (some sEx.noteContext) = sEx :=
  DialogueSession.fromData_toData sEx true ⟨by decide, by decide⟩

/-- C4: addResponse on a question id absent from the question list fails
with the question-not-found error and leaves the session, in particular its
response map, unchanged. -/
theorem DialogueSession.addResponse_notFound (s : DialogueSession)
    (questionId content : String) (now : Nat)
    (h : ∀ q ∈ s.questions, q.id ≠ questionId) :
    s.addResponse questionId content now =
      (s, some ("Question not found: " ++ questionId)) := by
  have hf : s.questions.find? (fun q => q.id == questionId) = none := by
    rw [List.find?_eq_none]
    intro q hq
    simpa using h q hq
  simp [DialogueSession.addResponse, hf]

/-- Witness for C4: an unknown id on the concrete session. -/
theorem DialogueSession.addResponse_notFound_witness :
    sEx.addResponse "zzz" "text" 9 =
      (sEx, some ("Question not found: " ++ "zzz")) :=
  DialogueSession.addResponse_notFound sEx "zzz" "text" 9 (by decide)

/-- C5: the history pairs every question, in insertion order, with its
response or the no-response sentinel (so its length is the question count),
and the answered and unanswered question lists are disjoint, cover the full
question list, and each preserve insertion order (they are sublists). -/
theorem DialogueSession.historyPartition (s : DialogueSession) :
    s.getHistory.length = s.questions.length ∧
    s.getHistory.map DialogueEntry.question = s.questions ∧
    (∀ e ∈ s.getHistory,
      e.response =
        (respGet s.responses e.question.id).map DialogueResponse.content ∧
      e.responseCreatedAt =
        (respGet s.responses e.question.id).map DialogueResponse.createdAt) ∧
    (∀ q ∈ s.getAnsweredQuestions, q ∉ s.getUnansweredQuestions) ∧
    (∀ q, q ∈ s.questions ↔
      q ∈ s.getAnsweredQuestions ∨ q ∈ s.getUnansweredQuestions) ∧
    s.getAnsweredQuestions.Sublist s.questions ∧
    s.getUnansweredQuestions.Sublist s.questions := by
  refine ⟨?_, ?_, ?_, ?_, ?_, ?_, ?_⟩
  · simp [DialogueSession.getHistory]
  · unfold DialogueSession.getHistory
    rw [List.map_map]
    conv_rhs => rw [← List.map_id s.questions]
    apply List.map_congr_left
    intro q _
    simp only [Function.comp_apply, id_eq]
    cases respGet s.responses q.id <;> rfl
  · intro e he
    unfold DialogueSession.getHistory at he
    obtain ⟨q, _, rfl⟩ := List.mem_map.1 he
    cases hr : respGet s.responses q.id <;> simp [hr]
  · intro q hq hq'
    simp only [DialogueSession.getAnsweredQuestions, List.mem_filter] at hq
    simp only [DialogueSession.getUnansweredQuestions, List.mem_filter,
      Bool.not_eq_true'] at hq'
    rw [hq.2] at hq'
    exact Bool.noConfusion hq'.2
  · intro q
    by_cases hr : respHas s.responses q.id = true <;>
      simp [DialogueSession.getAnsweredQuestions,
        DialogueSession.getUnansweredQuestions, List.mem_filter, hr]
  · exact List.filter_sublist s.questions
  · exact List.filter_sublist s.questions

/-- Witness for C5: on the concrete session, the answered question `qEx1`
is not among the unanswered questions. -/
theorem DialogueSession.historyPartition_witness :
    qEx1 ∉ sEx.getUnansweredQuestions :=
  (DialogueSession.historyPartition sEx).2.2.2.1 qEx1 (by decide)

set_option maxRecDepth 40000

/-- Dropping while a predicate holds is idempotent. -/
theorem dropWhile_self_idem (p : Char → Bool) (l : List Char) :
    (l.dropWhile p).dropWhile p = l.dropWhile p := by
  induction l with
  | nil => rfl
  | cons c rest ih =>
    by_cases h : p c
    · simp [List.dropWhile_cons, h, ih]
    · simp [List.dropWhile_cons, h]

/-- The head of a drop-while result falsifies the predicate. -/
theorem head?_dropWhile_false (p : Char → Bool) (l : List Char) :
    ∀ c, (l.dropWhile p).head? = some c → p c = false := by
  induction l with
  | nil => intro c hc; cases hc
  | cons d rest ih =>
    intro c hc
    by_cases h : p d
    · simp only [List.dropWhile_cons, if_pos h] at hc
      exact ih c hc
    · simp only [List.dropWhile_cons, if_neg h, List.head?_cons,
        Option.some.injEq] at hc
      rw [← hc]
      simpa using h

/-- A list whose head falsifies the predicate is unchanged by drop-while. -/
theorem dropWhile_eq_self_of_head (p : Char → Bool) (l : List Char)
    (h : ∀ c, l.head? = some c → p c = false) : l.dropWhile p = l := by
  cases l with
  | nil => rfl
  | cons c rest =>
    have hc := h c rfl
    simp [List.dropWhile_cons, hc]

/-- Drop-while yields a suffix of the original list. -/
theorem dropWhile_suffix_exists (p : Char → Bool) (l : List Char) :
    ∃ t, t ++ l.dropWhile p = l := by
  induction l with
  | nil => exact ⟨[], rfl⟩
  | cons c rest ih =>
    by_cases h : p c
    · obtain ⟨t, ht⟩ := ih
      exact ⟨c :: t, by simp [List.dropWhile_cons, h, ht]⟩
    · exact ⟨[], by simp [List.dropWhile_cons, h]⟩

/-- A nonempty drop-while result keeps the last element of the original. -/
theorem getLast?_dropWhile (p : Char → Bool) (l : List Char)
    (h : l.dropWhile p ≠ []) :
    (l.dropWhile p).getLast? = l.getLast? := by
  obtain ⟨t, ht⟩ := dropWhile_suffix_exists p l
  conv_rhs => rw [← ht]
  rw [List.getLast?_append_of_ne_nil t h]

/-- The first character of a trimmed list is not whitespace. -/
theorem trimChars_head (l : List Char) :
    ∀ c, (trimChars l).head? = some c → Char.isWhitespace c = false := by
  intro c hc
  unfold trimChars at hc
  rw [List.head?_reverse] at hc
  have hne : (l.dropWhile Char.isWhitespace).reverse.dropWhile
      Char.isWhitespace ≠ [] := by
    intro h0
    rw [h0] at hc
    simp at hc
  rw [getLast?_dropWhile _ _ hne, List.getLast?_reverse] at hc
  exact head?_dropWhile_false _ l c hc

/-- The last character of a trimmed list is not whitespace. -/
theorem trimChars_getLast (l : List Char) :
    ∀ c, (trimChars l).getLast? = some c → Char.isWhitespace c = false := by
  intro c hc
  unfold trimChars at hc
  rw [List.getLast?_reverse] at hc
  exact head?_dropWhile_false _ _ c hc

/-- Trimming is idempotent. -/
theorem trimChars_idem (l : List Char) :
    trimChars (trimChars l) = trimChars l := by
  have h1 : (trimChars l).dropWhile Char.isWhitespace = trimChars l :=
    dropWhile_eq_self_of_head _ _ (trimChars_head l)
  have h2 : (trimChars l).reverse.dropWhile Char.isWhitespace =
      (trimChars l).reverse := by
    apply dropWhile_eq_self_of_head
    intro c hc
    rw [List.head?_reverse] at hc
    exact trimChars_getLast l c hc
  calc trimChars (trimChars l)
      = (((trimChars l).dropWhile Char.isWhitespace).reverse.dropWhile
          Char.isWhitespace).reverse := rfl
    _ = trimChars l := by rw [h1, h2, List.reverse_reverse]

/-- The JavaScript trim model is idempotent. -/
theorem jsTrim_idem (s : String) : jsTrim (jsTrim s) = jsTrim s := by
  show (trimChars ((trimChars s.data).asString).data).asString =
    (trimChars s.data).asString
  have hd : ((trimChars s.data).asString).data = trimChars s.data := rfl
  rw [hd, trimChars_idem]

/-- Any entry of the updated map is an old entry or the new binding. -/
theorem mem_respSet (m : List (String × DialogueResponse)) (k : String)
    (v : DialogueResponse) (p : String × DialogueResponse)
    (hp : p ∈ respSet m k v) : p ∈ m ∨ p = (k, v) := by
  unfold respSet at hp
  by_cases hany : m.any (fun q => q.1 == k)
  · rw [if_pos hany] at hp
    obtain ⟨q, hq, hfq⟩ := List.mem_map.1 hp
    by_cases hqk : q.1 == k
    · rw [if_pos hqk] at hfq
      exact Or.inr hfq.symm
    · rw [if_neg hqk] at hfq
      exact Or.inl (hfq ▸ hq)
  · rw [if_neg hany] at hp
    rcases List.mem_append.1 hp with h | h
    · exact Or.inl h
    · simp only [List.mem_singleton] at h
      exact Or.inr h

/-- The spec invariant on stored responses: non-empty content equal to its
own trimmed form, for every entry of the response map. -/
def ResponsesTrimmed (s : DialogueSession) : Prop :=
  ∀ p ∈ s.responses, p.2.content ≠ "" ∧ jsTrim p.2.content = p.2.content

/-- C9 counterexample: `DialogueSession.addResponse` stores content
verbatim, so recording the blank content "   " against an existing question
succeeds and leaves a stored response whose content is untrimmed and trims
to the empty string, falsifying the claimed entity-level invariant. -/
theorem addResponse_storesVerbatim_cex :
    respGet ((sEx.addResponse "q1" "   " 9).1).responses "q1" =
      some { questionId := "q1", content := "   ", createdAt := 9 } ∧
    jsTrim "   " = "" ∧ "   " ≠ "" := by decide

/-- The session returned by RecordResponse is the input session or the
input session with one trimmed response set. -/
theorem recordResponse_fst_cases (save : DialogueSession → Except String Unit)
    (now : Nat) (session : DialogueSession) (questionId response : String) :
    (RecordResponseUseCase.execute save now session questionId response).1 =
      session ∨
    (jsTrim response ≠ "" ∧
      (RecordResponseUseCase.execute save now session questionId
          response).1 =
        { session with
            responses := respSet session.responses questionId
              { questionId := questionId, content := jsTrim response,
                createdAt := now }
            updatedAt := now }) := by
  unfold RecordResponseUseCase.execute
  by_cases hb : jsTrim response = ""
  · rw [if_pos hb]
    exact Or.inl rfl
  · rw [if_neg hb]
    split
    · exact Or.inl rfl
    · next s1 heq =>
        have hs1 : s1 = { session with
            responses := respSet session.responses questionId
              { questionId := questionId, content := jsTrim response,
                createdAt := now }
            updatedAt := now } := by
          unfold DialogueSession.addResponse at heq
          cases hf : session.questions.find? (fun q => q.id == questionId) with
          | none =>
            rw [hf] at heq
            simp at heq
          | some q =>
            rw [hf] at heq
            injection heq with h1 h2
            exact h1.symm
        subst hs1
        refine Or.inr ⟨hb, ?_⟩
        cases save { session with
            responses := respSet session.responses questionId
              { questionId := questionId, content := jsTrim response,
                createdAt := now }
            updatedAt := now } with
        | ok u => rfl
        | error e => rfl

/-- C9 amended: the trimmed-non-empty invariant is maintained by the
record-response use case, which trims the input and rejects blank text:
whenever it holds of the input session it holds of the returned session.
The entity operation `addResponse` itself does not enforce it. -/
theorem RecordResponseUseCase.execute_trimmed
    (save : DialogueSession → Except String Unit) (now : Nat)
    (session : DialogueSession) (questionId response : String)
    (h : ResponsesTrimmed session) :
    ResponsesTrimmed
      (RecordResponseUseCase.execute save now session questionId
        response).1 := by
  rcases recordResponse_fst_cases save now session questionId response with
    h1 | ⟨hne, h1⟩
  · rw [h1]; exact h
  · rw [h1]
    intro p hp
    rcases mem_respSet _ _ _ p hp with hm | hpk
    · exact h p hm
    · rw [hpk]
      exact ⟨hne, jsTrim_idem response⟩

/-- Witness for the amended C9 at a concrete session and a padded input. -/
theorem RecordResponseUseCase.execute_trimmed_witness :
    ResponsesTrimmed
      (RecordResponseUseCase.execute (fun _ => Except.ok ()) 9 sEx "q2"
        " An answer. ").1 :=
  RecordResponseUseCase.execute_trimmed (fun _ => Except.ok ()) 9 sEx "q2"
    " An answer. "
    (by
      intro p hp
      simp only [sEx, List.mem_singleton] at hp
      rw [hp]
      exact ⟨by decide, by decide⟩)

/-- C6: both validation failures (blank note text, empty type selection)
return an error with an empty question list without reaching the LLM call;
and when the LLM succeeds but zero questions are recoverable from the
response text, the use case returns the dedicated could-not-generate
message, which differs from the default LLM-failure message. -/
theorem GenerateQuestionsUseCase.execute_failureModes (jq : QJsonParse)
    (genId : Nat → String) (now : Nat) (input : GenerateQuestionsInput)
    (response : LLMResponse) :
    (jsTrim input.noteContent = "" →
      GenerateQuestionsUseCase.execute jq genId now input response =
        ({ questions := [], rawResponse := none,
           error := some msgEmptyNote }, false)) ∧
    (jsTrim input.noteContent ≠ "" → input.questionTypes = [] →
      GenerateQuestionsUseCase.execute jq genId now input response =
        ({ questions := [], rawResponse := none,
           error := some msgNoTypes }, false)) ∧
    (jsTrim input.noteContent ≠ "" → input.questionTypes ≠ [] →
      response.success = true →
      parseQuestionsFromResponse jq genId now response.content = [] →
      GenerateQuestionsUseCase.execute jq genId now input response =
        ({ questions := [], rawResponse := some response.content,
           error := some msgNoQuestions }, true)) ∧
    msgNoQuestions ≠ msgLLMFailKo := by
  refine ⟨?_, ?_, ?_, by decide⟩
  · intro h1
    simp [GenerateQuestionsUseCase.execute, h1]
  · intro h1 h2
    simp [GenerateQuestionsUseCase.execute, h1, h2]
  · intro h1 h2 h3 h4
    simp [GenerateQuestionsUseCase.execute, h1, h2, h3, h4]

/-- Oracle instance on which JSON decoding always fails, as it does on
plain prose. -/
def jqNoneEx : QJsonParse := fun _ => none

/-- A deterministic id supply for the witnesses. -/
def genIdEx : Nat → String := fun n => "q_" ++ toString n

/-- A valid generation input used by the witness. -/
def genInputEx : GenerateQuestionsInput :=
  { noteContent := "A note with substance.", questionTypes := [.ASSUMPTION],
    intensity := .MODERATE, maxQuestions := none }

/-- A successful LLM response from which no question is recoverable. -/
def llmNoQuestionsEx : LLMResponse :=
  { success := true, content := "I could not think of anything.",
    error := none }

/-- Witness for C6: the zero-recoverable-questions branch at concrete
inputs. -/
theorem GenerateQuestionsUseCase.execute_failureModes_witness :
    GenerateQuestionsUseCase.execute jqNoneEx genIdEx 7 genInputEx
        llmNoQuestionsEx =
      ({ questions := [], rawResponse := some llmNoQuestionsEx.content,
         error := some msgNoQuestions }, true) :=
  (GenerateQuestionsUseCase.execute_failureModes jqNoneEx genIdEx 7
      genInputEx llmNoQuestionsEx).2.2.1
    (by decide) (by decide) rfl (by decide)

/-- C7: extraction fails up front when the session has no answered
question; with at least one answered question and a successful LLM call,
the failed-to-extract error is returned exactly when both the parsed
insights list and the parsed note-topics list are empty (the other two
lists being empty does not trigger it). -/
theorem ExtractInsightsUseCase.execute_extractionModes (jI : IJsonParse)
    (session : DialogueSession) (response : LLMResponse) :
    (session.getAnsweredQuestions = [] →
      ExtractInsightsUseCase.execute jI session response =
        ({ insights := [], noteTopics := [], unansweredQuestions := [],
           noteEnhancements := [], rawResponse := none,
           error := some msgNeedAnswered }, false)) ∧
    (session.getAnsweredQuestions ≠ [] → response.success = true →
      (parseInsightsFromResponse jI response.content).insights = [] →
      (parseInsightsFromResponse jI response.content).noteTopics = [] →
      (ExtractInsightsUseCase.execute jI session response).1.error =
        some msgFailExtract) ∧
    (session.getAnsweredQuestions ≠ [] → response.success = true →
      ((parseInsightsFromResponse jI response.content).insights ≠ [] ∨
        (parseInsightsFromResponse jI response.content).noteTopics ≠ []) →
      (ExtractInsightsUseCase.execute jI session response).1.error =
        none) := by
  refine ⟨?_, ?_, ?_⟩
  · intro h1
    simp [ExtractInsightsUseCase.execute, h1]
  · intro h1 h2 h3 h4
    have hlen : session.getAnsweredQuestions.length ≠ 0 := by
      simpa [List.length_eq_zero] using h1
    simp [ExtractInsightsUseCase.execute, hlen, h2, h3, h4]
  · intro h1 h2 h3
    have hlen : session.getAnsweredQuestions.length ≠ 0 := by
      simpa [List.length_eq_zero] using h1
    rcases h3 with h3 | h3 <;>
      simp [ExtractInsightsUseCase.execute, hlen, h2, h3]

/-- The insight JSON text of the witness scenario: a fenced object with
empty insights and note-topics arrays. -/
def insEmptyPayloadEx : String :=
  "\x7b\"insights\": [], \"noteTopics\": []\x7d"

/-- A successful LLM response carrying `insEmptyPayloadEx` in a fenced
block. -/
def llmInsEmptyEx : LLMResponse :=
  { success := true, content := "```json\n" ++ insEmptyPayloadEx ++ "\n```",
    error := none }

/-- Oracle instance decoding `insEmptyPayloadEx` to its JSON value (both
arrays present and empty, the other two fields absent). -/
def jIEmptyEx : IJsonParse :=
  fun s =>
    if s = insEmptyPayloadEx then
      some { insights := some [], noteTopics := some [],
             unansweredQuestions := none, noteEnhancements := none }
    else none

/-- Witness for C7: one answered question, successful LLM call, empty
insights and note-topics arrays. -/
theorem ExtractInsightsUseCase.execute_extractionModes_witness :
    (ExtractInsightsUseCase.execute jIEmptyEx sEx llmInsEmptyEx).1.error =
      some msgFailExtract :=
  (ExtractInsightsUseCase.execute_extractionModes jIEmptyEx sEx
      llmInsEmptyEx).2.1
    (by decide) rfl (by decide) (by decide)

/-- C10: generateText returns a failed result with empty content and a
human-readable error, without reaching the provider generate call, when no
provider is registered for the configured type or when the selected
provider reports itself unavailable. -/
theorem AIService.generateText_unavailable (svc : AIService)
    (messages : List LLMMessage) (options : Option LLMGenerateOptions) :
    (svc.getCurrentProvider = none →
      svc.generateText messages options =
        ({ success := false, content := "", error := some msgNoProvider },
          false)) ∧
    (∀ p, svc.getCurrentProvider = some p → p.isAvailable = false →
      svc.generateText messages options =
        ({ success := false, content := "", error := some msgNoApiKey },
          false)) := by
  constructor
  · intro h
    simp [AIService.generateText, h]
  · intro p hp hav
    simp [AIService.generateText, hp, hav]

/-- A registered provider with an empty API key. -/
def providerNoKeyEx : ILLMProvider :=
  { apiKey := "",
    generate := fun _ _ => { success := true, content := "ok", error := none } }

/-- A service whose configured provider is registered but has no API key. -/
def svcNoKeyEx : AIService :=
  { providers := [(.claude, providerNoKeyEx)],
    settings := { provider := .claude, apiKeys := fun _ => none,
                  models := fun _ => none } }

/-- Witness for C10: the registered-but-unavailable branch. -/
theorem AIService.generateText_unavailable_witness :
    svcNoKeyEx.generateText [] none =
      ({ success := false, content := "", error := some msgNoApiKey },
        false) :=
  (AIService.generateText_unavailable svcNoKeyEx [] none).2 providerNoKeyEx
    rfl rfl

/-- C2: scanning tries the current callout format first, then the comment
format, then the oldest block format, stopping at the first format that
yields at least one successfully parsed session; a block that fails to
parse is skipped without aborting the scan; and a document containing only
an oldest-format block yields one correctly reconstructed session from
getHistory, also when a corrupted sibling block has to be skipped. -/
theorem ObsidianDialogueRepository.parseSessions_formatFallback
    (jp : SessionJsonParse) (content noteContext : String) :
    (sessionsFromBlocks jp noteContext (scanCallout content.data) ≠ [] →
      ObsidianDialogueRepository.parseSessionsFromContent jp content
          noteContext =
        sessionsFromBlocks jp noteContext (scanCallout content.data)) ∧
    (sessionsFromBlocks jp noteContext (scanCallout content.data) = [] →
      sessionsFromBlocks jp noteContext (scanComment content.data) ≠ [] →
      ObsidianDialogueRepository.parseSessionsFromContent jp content
          noteContext =
        sessionsFromBlocks jp noteContext (scanComment content.data)) ∧
    (sessionsFromBlocks jp noteContext (scanCallout content.data) = [] →
      sessionsFromBlocks jp noteContext (scanComment content.data) = [] →
      ObsidianDialogueRepository.parseSessionsFromContent jp content
          noteContext =
        sessionsFromBlocks jp noteContext (scanLegacy content.data)) ∧
    ObsidianDialogueRepository.getHistory jpEx vaultLegacyEx "note.md" =
      [DialogueSession.fromData dEx
        (some (extractNoteContext legacyDocEx))] ∧
    ObsidianDialogueRepository.getHistory jpEx vaultLegacy2Ex "note2.md" =
      [DialogueSession.fromData dEx
        (some (extractNoteContext legacyDoc2Ex))] := by
  refine ⟨?_, ?_, ?_, by decide, by decide⟩
  · intro h
    simp [ObsidianDialogueRepository.parseSessionsFromContent,
      List.length_eq_zero, h]
  · intro h1 h2
    simp [ObsidianDialogueRepository.parseSessionsFromContent,
      List.length_eq_zero, h1, h2]
  · intro h1 h2
    simp [ObsidianDialogueRepository.parseSessionsFromContent,
      List.length_eq_zero, h1, h2]

/-- Witness for C2: a callout-format document takes the current-format
branch. -/
theorem ObsidianDialogueRepository.parseSessions_formatFallback_witness :
    ObsidianDialogueRepository.parseSessionsFromContent jpEx calloutDocEx
        "ctx" =
      sessionsFromBlocks jpEx "ctx" (scanCallout calloutDocEx.data) :=
  (ObsidianDialogueRepository.parseSessions_formatFallback jpEx calloutDocEx
      "ctx").1 (by decide)

/-- C3 counterexample: on a document whose two blocks appear oldest-first,
getHistory returns creation times [100, 200], which is not most-recent
first, and findByNoteId returns the session created at 100 even though a
session created at 200 exists. -/
theorem ObsidianDialogueRepository.getHistory_notSorted_cex :
    (ObsidianDialogueRepository.getHistory jpTwoEx vaultTwoEx
        "note.md").map DialogueSession.createdAt = [100, 200] ∧
    ¬ List.Sorted (fun a b : Nat => a ≥ b) [100, 200] ∧
    (ObsidianDialogueRepository.findByNoteId jpTwoEx vaultTwoEx
        "note.md").map DialogueSession.createdAt = some 100 ∧
    (100 : Nat) < 200 := by
  refine ⟨by decide, ?_, by decide, by decide⟩
  intro hs
  have := List.rel_of_sorted_cons hs 200 (by simp)
  omega

/-- C3 amended: the repository getHistory returns the successfully parsed
sessions in the order their blocks appear in the document (it applies no
sorting; most-recent-first ordering is applied downstream by
GetDialogueHistoryUseCase), and findByNoteId returns the first session of
that list, or none when the document is missing or holds no session. -/
theorem ObsidianDialogueRepository.getHistory_documentOrder
    (jp : SessionJsonParse) (vault : String → Option String)
    (noteId : String) :
    (vault noteId = none →
      ObsidianDialogueRepository.getHistory jp vault noteId = []) ∧
    ObsidianDialogueRepository.findByNoteId jp vault noteId =
      (ObsidianDialogueRepository.getHistory jp vault noteId).head? ∧
    (∀ content, vault noteId = some content →
      ObsidianDialogueRepository.getHistory jp vault noteId =
        ObsidianDialogueRepository.parseSessionsFromContent jp content
          (extractNoteContext content)) ∧
    (ObsidianDialogueRepository.getHistory jpTwoEx vaultTwoEx
        "note.md").map DialogueSession.createdAt = [100, 200] := by
  refine ⟨?_, ?_, ?_, by decide⟩
  · intro h
    simp [ObsidianDialogueRepository.getHistory, h]
  · unfold ObsidianDialogueRepository.findByNoteId
    cases ObsidianDialogueRepository.getHistory jp vault noteId <;> rfl
  · intro content h
    simp [ObsidianDialogueRepository.getHistory, h]

/-- Witness for the amended C3: a path absent from the vault yields the
empty history. -/
theorem ObsidianDialogueRepository.getHistory_documentOrder_witness :
    ObsidianDialogueRepository.getHistory jpTwoEx vaultTwoEx "missing.md" =
      [] :=
  (ObsidianDialogueRepository.getHistory_documentOrder jpTwoEx vaultTwoEx
      "missing.md").1 (by decide)

/-- The per-line candidate view of the fallback scan: a line is kept
exactly when its trimmed form is nonempty, contains a question mark, and
cleans to strictly more than 10 characters; a kept line contributes its
detected type and cleaned content. -/
def lineCandidate (line : String) : Option (QuestionTypeEnum × String) :=
  let t := jsTrim line
  if t ≠ "" ∧ hasSub t "?" ∧ (cleanContent t).length > 10 then
    some (detectQuestionType t, cleanContent t)
  else none

/-- The fallback loop equals, from any accumulator, the candidate list
enumerated from the accumulator length. -/
theorem foldl_fallbackStep (genId : Nat → String) (now : Nat)
    (lines : List String) :
    ∀ acc : List Question,
      lines.foldl (fallbackStep genId now) acc =
        acc ++ (List.enumFrom acc.length
            (lines.filterMap lineCandidate)).map
          (fun p => { id := genId p.1, type := p.2.1, content := p.2.2,
                      createdAt := now }) := by
  induction lines with
  | nil => intro acc; simp
  | cons line rest ih =>
    intro acc
    by_cases h1 : jsTrim line ≠ "" ∧ hasSub (jsTrim line) "?"
    · by_cases h2 : (cleanContent (jsTrim line)).length > 10
      · have hstep : fallbackStep genId now acc line =
            acc ++ [{ id := genId acc.length,
                      type := detectQuestionType (jsTrim line),
                      content := cleanContent (jsTrim line),
                      createdAt := now }] := by
          unfold fallbackStep
          rw [if_pos h1, if_pos h2]
        have hcand : lineCandidate line =
            some (detectQuestionType (jsTrim line),
              cleanContent (jsTrim line)) := by
          unfold lineCandidate
          rw [if_pos ⟨h1.1, h1.2, h2⟩]
        rw [List.foldl_cons, hstep, ih, List.filterMap_cons, hcand]
        simp [List.enumFrom_cons, List.append_assoc]
      · have hstep : fallbackStep genId now acc line = acc := by
          unfold fallbackStep
          rw [if_pos h1, if_neg h2]
        have hcand : lineCandidate line = none := by
          unfold lineCandidate
          rw [if_neg (fun hc => h2 hc.2.2)]
        rw [List.foldl_cons, hstep, ih, List.filterMap_cons, hcand]
    · have hstep : fallbackStep genId now acc line = acc := by
        unfold fallbackStep
        rw [if_neg h1]
      have hcand : lineCandidate line = none := by
        unfold lineCandidate
        rw [if_neg (fun hc => h1 ⟨hc.1, hc.2.1⟩)]
      rw [List.foldl_cons, hstep, ih, List.filterMap_cons, hcand]

/-- C8 counterexample: the line "Is it ok??" contains a question mark and
its cleaned content is exactly 10 characters long, which is not shorter
than the claimed 10-character minimum, yet the fallback scan yields no
question (the code keeps only candidates strictly longer than 10). -/
theorem parseQuestions_threshold_cex :
    findFenced "Is it ok??" = none ∧
    jsTrim "Is it ok??" ≠ "" ∧
    hasSub (jsTrim "Is it ok??") "?" = true ∧
    cleanContent (jsTrim "Is it ok??") = "Is it ok??" ∧
    (cleanContent (jsTrim "Is it ok??")).length = 10 ∧
    ¬ (cleanContent (jsTrim "Is it ok??")).length < 10 ∧
    parseQuestionsFromResponse jqNoneEx genIdEx 7 "Is it ok??" = [] := by
  decide

/-- C8 amended: the parser is a total function; whenever the text has no
fenced code block and does not itself parse as JSON, the fallback line scan
runs and produces exactly one question per line whose trimmed form contains
a question mark and whose cleaned content (after stripping bullet markers,
numbering, and icon glyphs) is strictly longer than 10 characters (at least
11); candidates cleaning to 10 characters or fewer are discarded; kept
lines appear in line order with their detected type and cleaned content. -/
theorem parseQuestions_fallbackCharacterization (jq : QJsonParse)
    (genId : Nat → String) (now : Nat) (text : String)
    (hf : findFenced text = none) (hj : jq (jsTrim text) = none) :
    parseQuestionsFromResponse jq genId now text =
      (((jsSplitLines text).filterMap lineCandidate).enum).map
        (fun p => { id := genId p.1, type := p.2.1, content := p.2.2,
                    createdAt := now }) := by
  unfold parseQuestionsFromResponse
  simp only [hf, hj]
  unfold fallbackScanQuestions
  rw [foldl_fallbackStep]
  simp [List.enum]

/-- Witness for the amended C8: a bulleted long question is kept and
cleaned, a short one is discarded. -/
theorem parseQuestions_fallbackCharacterization_witness :
    parseQuestionsFromResponse jqNoneEx genIdEx 7
        "- Is it truly justified??\nshort?" =
      [{ id := genIdEx 0, type := .ASSUMPTION,
         content := "Is it truly justified??", createdAt := 7 }] := by
  have h := parseQuestions_fallbackCharacterization jqNoneEx genIdEx 7
    "- Is it truly justified??\nshort?" (by decide) rfl
  rw [h]
  decide
